import Mathlib

/-!
Verification of the blitz-utils data-model core against its specification.

The Python source (pydantic models in `src/blitzutils/` and `models.py`) is
shallowly embedded: pure functions become Lean functions, pydantic
validator pipelines become explicit construction functions returning
`Except`/`Option`, machine integers become `Nat`/`Int`, and hexadecimal
strings are represented as lists of digit values (`List Nat`, each `< 16`),
which is the same data as the hex character string up to the fixed bijection
between digit values and glyphs.
-/

namespace BlitzUtils

/-- `Region` enumeration from `models.py` (class Region(StrEnum)), in
declaration order: ru, eu, com, asia, china. -/
inductive Region where
  | ru
  | eu
  | com
  | asia
  | china
deriving DecidableEq, Repr

/-- Declaration-order index of a region, i.e. `list(Region).index(region)`
in Python. -/
def Region.listIndex : Region → Nat
  | .ru => 0
  | .eu => 1
  | .com => 2
  | .asia => 3
  | .china => 4

/-- `Region(str)` StrEnum lookup by value: returns the member whose value
matches, otherwise raises (modelled as `none`). -/
def Region.fromStr : String → Option Region
  | "ru" => some .ru
  | "eu" => some .eu
  | "com" => some .com
  | "asia" => some .asia
  | "china" => some .china
  | _ => none

/-- `Region.from_id` (`models.py` lines 49-64): classifies a non-negative
account id by fixed numeric breakpoints.  The Python float literals
`31e8`, `20e8`, `10e8`, `5e8` are exactly the integers used here, and the
body cannot raise for an `int` input, so the function is total. -/
def Region.from_id (account_id : Nat) : Region :=
  if account_id ≥ 3100000000 then .china
  else if account_id ≥ 2000000000 then .asia
  else if account_id ≥ 1000000000 then .com
  else if account_id ≥ 500000000 then .eu
  else .ru

/-! ## IdentityCodec: `WGTankStat.mk_id` / `WGPlayerAchievementsMaxSeries.mk_index`

`hex(n)[2:]` for a non-negative Python int is the big-endian base-16
representation with no leading zeros (and the single digit "0" for 0).
We represent it as `List Nat` of digit values. -/

/-- `hex(n)[2:]` for `n ≥ 0`: big-endian base-16 digit values, `[0]` for 0. -/
def hexStr (n : Nat) : List Nat :=
  if n = 0 then [0] else (Nat.digits 16 n).reverse

/-- Python `str.zfill(w)` on a digit string: left-pad with zeros to width
`w`; never truncates. -/
def zfill (w : Nat) (s : List Nat) : List Nat :=
  List.replicate (w - s.length) 0 ++ s

/-- The 24-hex-digit concatenation built by `WGTankStat.mk_id`
(`wg_api.py` line 224): zero-padded account id (10 digits) ‖ tank id
(6 digits) ‖ last_battle_time (8 digits). -/
def mk_id_raw (account_id last_battle_time tank_id : Nat) : List Nat :=
  zfill 10 (hexStr account_id) ++ zfill 6 (hexStr tank_id) ++ zfill 8 (hexStr last_battle_time)

/-- The `bson.ObjectId` constructor applied to a hex string: accepts
exactly 24 hex characters, otherwise raises `InvalidId`.  Our inputs are
always hex digits, so only the length check is live. -/
def objectId (s : List Nat) : Except String (List Nat) :=
  if s.length = 24 then .ok s else .error "InvalidId"

/-- `WGTankStat.mk_id` (`wg_api.py` lines 222-224): encode the triple and
construct the `ObjectId`, which fails when the concatenation is not
exactly 24 hex digits. -/
def mk_id (account_id last_battle_time tank_id : Nat) : Except String (List Nat) :=
  objectId (mk_id_raw account_id last_battle_time tank_id)

/-- Modelled from the spec: §4.2 defines `decode(key) -> (u64, u64, u64)`
as the exact inverse of the encoder, splitting the 24-hex-digit key into
its 10/6/8-digit columns and reading each back as a hexadecimal number.
No decoder exists in `src/`; only the encoder (`mk_id`/`mk_index`) does. -/
def decode (k : List Nat) : Nat × Nat × Nat :=
  (parseHex (k.take 10), parseHex ((k.drop 10).take 6), parseHex (k.drop 16))
where
  /-- read a big-endian hex digit string as a number -/
  parseHex (s : List Nat) : Nat := s.foldl (fun acc d => 16 * acc + d) 0

/-! ### Codec lemmas -/

lemma parseHex_append_singleton (l : List Nat) (d : Nat) :
    decode.parseHex (l ++ [d]) = 16 * decode.parseHex l + d := by
  simp [decode.parseHex, List.foldl_append]

lemma parseHex_replicate_zero_append (k : Nat) (s : List Nat) :
    decode.parseHex (List.replicate k 0 ++ s) = decode.parseHex s := by
  induction k with
  | zero => simp
  | succ n ih => simpa [List.replicate_succ, decode.parseHex] using ih

lemma parseHex_zfill (w : Nat) (s : List Nat) :
    decode.parseHex (zfill w s) = decode.parseHex s :=
  parseHex_replicate_zero_append _ _

lemma parseHex_digits_reverse (n : Nat) :
    decode.parseHex ((Nat.digits 16 n).reverse) = n := by
  induction n using Nat.strong_induction_on with
  | _ n ih =>
    rcases Nat.eq_zero_or_pos n with h | h
    · subst h; simp [decode.parseHex]
    · rw [Nat.digits_def' (by norm_num) h, List.reverse_cons,
        parseHex_append_singleton, ih (n / 16) (Nat.div_lt_self h (by norm_num))]
      exact Nat.div_add_mod n 16

lemma parseHex_hexStr (n : Nat) : decode.parseHex (hexStr n) = n := by
  unfold hexStr
  split
  · simp [decode.parseHex]; omega
  · exact parseHex_digits_reverse n

lemma hexStr_length_le {n w : Nat} (hw : 0 < w) (h : n < 16 ^ w) :
    (hexStr n).length ≤ w := by
  unfold hexStr
  split
  · simpa using hw
  · rw [List.length_reverse]
    by_contra hgt
    push_neg at hgt
    have h1 : 16 ^ (Nat.digits 16 n).length ≤ 16 * n :=
      Nat.base_pow_length_digits_le 16 n (by norm_num) (by assumption)
    have h2 : (16 : Nat) ^ (w + 1) ≤ 16 ^ (Nat.digits 16 n).length :=
      Nat.pow_le_pow_right (by norm_num) hgt
    have h4 : (16 : Nat) ^ (w + 1) = 16 * 16 ^ w := by ring
    omega

lemma hexStr_length_gt {n w : Nat} (h : 16 ^ w ≤ n) : w < (hexStr n).length := by
  have hn : n ≠ 0 := by
    have : 0 < 16 ^ w := Nat.pos_pow_of_pos w (by norm_num)
    omega
  unfold hexStr
  rw [if_neg hn, List.length_reverse]
  by_contra hle
  push_neg at hle
  have h1 : n < 16 ^ (Nat.digits 16 n).length :=
    Nat.lt_base_pow_length_digits (by norm_num)
  have h2 : (16 : Nat) ^ (Nat.digits 16 n).length ≤ 16 ^ w :=
    Nat.pow_le_pow_right (by norm_num) hle
  omega

lemma zfill_length (w : Nat) (s : List Nat) :
    (zfill w s).length = max w s.length := by
  simp [zfill]
  omega

lemma take_append_of_length_eq {l₁ l₂ : List Nat} {n : Nat} (h : l₁.length = n) :
    (l₁ ++ l₂).take n = l₁ := by
  subst h
  exact List.take_left _ _

lemma drop_append_of_length_eq {l₁ l₂ : List Nat} {n : Nat} (h : l₁.length = n) :
    (l₁ ++ l₂).drop n = l₂ := by
  subst h
  exact List.drop_left _ _

lemma decode_mk_id_raw {a t lbt : Nat} (ha : a < 16 ^ 10) (ht : t < 16 ^ 6)
    (hl : lbt < 16 ^ 8) : decode (mk_id_raw a lbt t) = (a, t, lbt) := by
  have hA : (zfill 10 (hexStr a)).length = 10 := by
    rw [zfill_length]
    have := hexStr_length_le (by norm_num) ha
    omega
  have hB : (zfill 6 (hexStr t)).length = 6 := by
    rw [zfill_length]
    have := hexStr_length_le (by norm_num) ht
    omega
  have e1 : (mk_id_raw a lbt t).take 10 = zfill 10 (hexStr a) := by
    unfold mk_id_raw
    rw [List.append_assoc]
    exact take_append_of_length_eq hA
  have e2 : (mk_id_raw a lbt t).drop 10 = zfill 6 (hexStr t) ++ zfill 8 (hexStr lbt) := by
    unfold mk_id_raw
    rw [List.append_assoc]
    exact drop_append_of_length_eq hA
  have e3 : ((mk_id_raw a lbt t).drop 10).take 6 = zfill 6 (hexStr t) := by
    rw [e2]
    exact take_append_of_length_eq hB
  have e4 : (mk_id_raw a lbt t).drop 16 = zfill 8 (hexStr lbt) := by
    have h16 : ((mk_id_raw a lbt t).drop 10).drop 6 = (mk_id_raw a lbt t).drop 16 := by
      rw [List.drop_drop]
    rw [← h16, e2]
    exact drop_append_of_length_eq hB
  unfold decode
  rw [e1, e3, e4, parseHex_zfill, parseHex_zfill, parseHex_zfill,
    parseHex_hexStr, parseHex_hexStr, parseHex_hexStr]

lemma mk_id_raw_length_eq {a t lbt : Nat} (ha : a < 16 ^ 10) (ht : t < 16 ^ 6)
    (hl : lbt < 16 ^ 8) : (mk_id_raw a lbt t).length = 24 := by
  have hA := hexStr_length_le (show 0 < 10 by norm_num) ha
  have hB := hexStr_length_le (show 0 < 6 by norm_num) ht
  have hC := hexStr_length_le (show 0 < 8 by norm_num) hl
  simp [mk_id_raw, zfill_length]
  omega

lemma mk_id_raw_length_gt {a t lbt : Nat}
    (h : ¬(a < 16 ^ 10 ∧ t < 16 ^ 6 ∧ lbt < 16 ^ 8)) :
    24 < (mk_id_raw a lbt t).length := by
  have hA : 10 ≤ (zfill 10 (hexStr a)).length := by rw [zfill_length]; omega
  have hB : 6 ≤ (zfill 6 (hexStr t)).length := by rw [zfill_length]; omega
  have hC : 8 ≤ (zfill 8 (hexStr lbt)).length := by rw [zfill_length]; omega
  have hlen : (mk_id_raw a lbt t).length =
      (zfill 10 (hexStr a)).length + (zfill 6 (hexStr t)).length
        + (zfill 8 (hexStr lbt)).length := by
    simp [mk_id_raw]
    omega
  push_neg at h
  by_cases ha : a < 16 ^ 10
  · by_cases ht : t < 16 ^ 6
    · have hlbt := h ha ht
      have := hexStr_length_gt hlbt
      have : 8 < (zfill 8 (hexStr lbt)).length := by rw [zfill_length]; omega
      omega
    · have := hexStr_length_gt (Nat.le_of_not_lt ht)
      have : 6 < (zfill 6 (hexStr t)).length := by rw [zfill_length]; omega
      omega
  · have := hexStr_length_gt (Nat.le_of_not_lt ha)
    have : 10 < (zfill 10 (hexStr a)).length := by rw [zfill_length]; omega
    omega

lemma mk_id_ok {a t lbt : Nat} (ha : a < 16 ^ 10) (ht : t < 16 ^ 6)
    (hl : lbt < 16 ^ 8) : mk_id a lbt t = .ok (mk_id_raw a lbt t) := by
  unfold mk_id objectId
  rw [if_pos (mk_id_raw_length_eq ha ht hl)]

/-- C2: for every triple (account, secondary, timestamp) of non-negative
integers whose hexadecimal representations fit within 10, 6 and 8 digits,
the encoder `mk_id` succeeds and produces the 24-hex-digit composite key,
and `decode` applied to that key returns the original triple exactly. -/
theorem C2_decode_encode_roundtrip (a t lbt : Nat) (ha : a < 16 ^ 10)
    (ht : t < 16 ^ 6) (hl : lbt < 16 ^ 8) :
    mk_id a lbt t = .ok (mk_id_raw a lbt t) ∧
      decode (mk_id_raw a lbt t) = (a, t, lbt) :=
  ⟨mk_id_ok ha ht hl, decode_mk_id_raw ha ht hl⟩

/-- Witness for C2 at the concrete triple (0, 0, 0). -/
theorem C2_decode_encode_roundtrip_witness :
    (0 : Nat) < 16 ^ 10 ∧ (0 : Nat) < 16 ^ 6 ∧ (0 : Nat) < 16 ^ 8 ∧
      (mk_id 0 0 0 = .ok (mk_id_raw 0 0 0) ∧ decode (mk_id_raw 0 0 0) = (0, 0, 0)) :=
  ⟨by norm_num, by norm_num, by norm_num,
    C2_decode_encode_roundtrip 0 0 0 (by norm_num) (by norm_num) (by norm_num)⟩

/-- C3: for every triple in which at least one component's hexadecimal
representation exceeds its digit budget (10/6/8), `mk_id` fails with an
`InvalidId` error — `zfill` never truncates, so the concatenation is
longer than 24 digits and the `ObjectId` constructor rejects it — and the
result never coincides with the successfully encoded key of any in-budget
triple. -/
theorem C3_overflow_encoding_fails (a t lbt : Nat)
    (h : ¬(a < 16 ^ 10 ∧ t < 16 ^ 6 ∧ lbt < 16 ^ 8)) :
    mk_id a lbt t = .error "InvalidId" ∧
      ∀ a' t' lbt', a' < 16 ^ 10 → t' < 16 ^ 6 → lbt' < 16 ^ 8 →
        mk_id a lbt t ≠ mk_id a' lbt' t' := by
  have herr : mk_id a lbt t = .error "InvalidId" := by
    unfold mk_id objectId
    rw [if_neg]
    have := mk_id_raw_length_gt h
    omega
  refine ⟨herr, fun a' t' lbt' ha' ht' hl' hcontra => ?_⟩
  have hok : mk_id a' lbt' t' = .ok (mk_id_raw a' lbt' t') :=
    mk_id_ok ha' ht' hl'
  rw [herr, hok] at hcontra
  exact Except.noConfusion hcontra

/-- Witness for C3 at the concrete out-of-budget triple (16^10, 0, 0). -/
theorem C3_overflow_encoding_fails_witness :
    ¬((16 : Nat) ^ 10 < 16 ^ 10 ∧ (0 : Nat) < 16 ^ 6 ∧ (0 : Nat) < 16 ^ 8) ∧
      mk_id (16 ^ 10) 0 0 = .error "InvalidId" :=
  ⟨by norm_num,
    (C3_overflow_encoding_fails (16 ^ 10) 0 0 (by norm_num)).1⟩

/-- C4: region resolution is total — `Region.from_id` is a total function
on `Nat` because the Python body cannot raise on an `int` — and maps the
five breakpoint ranges [0, 5e8), [5e8, 1e9), [1e9, 2e9), [2e9, 3.1e9),
[3.1e9, ∞) to ru, eu, com, asia, china respectively. -/
theorem C4_region_breakpoints (n : Nat) :
    (n < 500000000 → Region.from_id n = .ru) ∧
    (500000000 ≤ n → n < 1000000000 → Region.from_id n = .eu) ∧
    (1000000000 ≤ n → n < 2000000000 → Region.from_id n = .com) ∧
    (2000000000 ≤ n → n < 3100000000 → Region.from_id n = .asia) ∧
    (3100000000 ≤ n → Region.from_id n = .china) := by
  unfold Region.from_id
  refine ⟨fun h => ?_, fun h1 h2 => ?_, fun h1 h2 => ?_, fun h1 h2 => ?_, fun h => ?_⟩ <;>
    split_ifs <;> first | rfl | omega

/-- Witness for C4 at one concrete id in each breakpoint range. -/
theorem C4_region_breakpoints_witness :
    Region.from_id 100 = .ru ∧ Region.from_id 500000000 = .eu ∧
      Region.from_id 1000000000 = .com ∧ Region.from_id 2000000000 = .asia ∧
      Region.from_id 3100000000 = .china :=
  ⟨(C4_region_breakpoints 100).1 (by norm_num),
    (C4_region_breakpoints 500000000).2.1 (by norm_num) (by norm_num),
    (C4_region_breakpoints 1000000000).2.2.1 (by norm_num) (by norm_num),
    (C4_region_breakpoints 2000000000).2.2.2.1 (by norm_num) (by norm_num),
    (C4_region_breakpoints 3100000000).2.2.2.2 (by norm_num)⟩

/-! ## String helpers shared by `Release` and `Account`

Python `str.split(sep)` for a one-character separator, over the string's
character list, and Python `int(s)` for the plain sign-and-digits strings
this code base feeds it (other `int()` spellings such as embedded
underscores or surrounding whitespace never occur here). -/

/-- `s.split(sep)` for a single-character separator. -/
def splitOnChar (sep : Char) : List Char → List (List Char)
  | [] => [[]]
  | c :: cs =>
    if c = sep then [] :: splitOnChar sep cs
    else
      match splitOnChar sep cs with
      | [] => [[c]]
      | g :: gs => (c :: g) :: gs

/-- numeric value of an ASCII digit character -/
def charVal (c : Char) : Nat := c.toNat - 48

/-- `int(s)` on a non-negative decimal digit string: fails on the empty
string or any non-digit character. -/
def parseNatChars (cs : List Char) : Option Nat :=
  if cs ≠ [] ∧ cs.all Char.isDigit = true then
    some (cs.foldl (fun a c => 10 * a + charVal c) 0)
  else none

/-- `int(s)` including an optional leading minus sign. -/
def parseIntChars (cs : List Char) : Option Int :=
  if cs.head? = some ('-') then (parseNatChars cs.tail).map fun n => -(n : Int)
  else (parseNatChars cs).map fun n => (n : Int)

/-- Python `sep.join(parts)` for the one-character separator `'.'`. -/
def joinDot : List (List Char) → List Char
  | [] => []
  | [p] => p
  | p :: ps => p ++ ('.') :: joinDot ps

lemma splitOnChar_ne_nil (sep : Char) (l : List Char) : splitOnChar sep l ≠ [] := by
  cases l with
  | nil => simp [splitOnChar]
  | cons c cs =>
    unfold splitOnChar
    split
    · simp
    · split <;> simp

lemma splitOnChar_of_not_mem {sep : Char} {l : List Char} (h : sep ∉ l) :
    splitOnChar sep l = [l] := by
  induction l with
  | nil => rfl
  | cons c cs ih =>
    unfold splitOnChar
    rw [if_neg (by simp at h; exact fun hc => h.1 hc.symm)]
    rw [ih (by simp at h; exact h.2)]

lemma splitOnChar_append_sep {sep : Char} {p : List Char} (rest : List Char)
    (h : sep ∉ p) : splitOnChar sep (p ++ sep :: rest) = p :: splitOnChar sep rest := by
  induction p with
  | nil => simp [splitOnChar]
  | cons c cs ih =>
    simp only [List.mem_cons, not_or] at h
    simp only [List.cons_append, splitOnChar]
    rw [if_neg (fun hc => h.1 hc.symm), List.append_eq, ih h.2]

lemma splitOnChar_joinDot (parts : List (List Char)) (hne : parts ≠ [])
    (h : ∀ p ∈ parts, ('.') ∉ p) :
    splitOnChar ('.') (joinDot parts) = parts := by
  induction parts with
  | nil => exact absurd rfl hne
  | cons p ps ih =>
    cases ps with
    | nil =>
      show splitOnChar ('.') (joinDot [p]) = [p]
      rw [show joinDot [p] = p from rfl]
      exact splitOnChar_of_not_mem (h p (by simp))
    | cons q qs =>
      show splitOnChar ('.') (p ++ ('.') :: joinDot (q :: qs)) = p :: q :: qs
      rw [splitOnChar_append_sep _ (h p (by simp))]
      rw [ih (by simp) (fun r hr => h r (by simp [hr]))]

/-! ### Decimal print/parse roundtrip for `toString : Int → String` -/

lemma digitChar_isDigit {d : Nat} (h : d < 10) : (Nat.digitChar d).isDigit = true := by
  interval_cases d <;> decide

lemma charVal_digitChar {d : Nat} (h : d < 10) : charVal (Nat.digitChar d) = d := by
  interval_cases d <;> decide

lemma toDigitsCore_eq (fuel : Nat) : ∀ (n : Nat) (ds : List Char), 0 < n →
    n < 10 ^ fuel →
    Nat.toDigitsCore 10 fuel n ds = (Nat.digits 10 n).reverse.map Nat.digitChar ++ ds := by
  induction fuel with
  | zero =>
    intro n ds hpos hfuel
    simp at hfuel
    omega
  | succ fuel ih =>
    intro n ds hpos hfuel
    rw [Nat.toDigitsCore]
    by_cases h10 : n / 10 = 0
    · have hn10 : n < 10 := by omega
      rw [if_pos h10, Nat.digits_def' (by norm_num) hpos, h10]
      simp
    · rw [if_neg h10]
      have hpos' : 0 < n / 10 := Nat.pos_of_ne_zero h10
      have hlt : n / 10 < 10 ^ fuel := by
        rw [Nat.div_lt_iff_lt_mul (by norm_num)]
        calc n < 10 ^ (fuel + 1) := hfuel
        _ = 10 ^ fuel * 10 := by ring
      rw [ih (n / 10) _ hpos' hlt, Nat.digits_def' (by norm_num) hpos]
      simp

lemma toDigits_eq_digits {n : Nat} (hpos : 0 < n) :
    Nat.toDigits 10 n = (Nat.digits 10 n).reverse.map Nat.digitChar := by
  unfold Nat.toDigits
  rw [toDigitsCore_eq (n + 1) n [] hpos ?_, List.append_nil]
  have h1 : n < 10 ^ n := Nat.lt_pow_self (by norm_num) n
  have h2 : (10 : Nat) ^ n ≤ 10 ^ (n + 1) :=
    Nat.pow_le_pow_right (by norm_num) (Nat.le_succ n)
  omega

lemma toDigits_all_digits (n : Nat) : ∀ c ∈ Nat.toDigits 10 n, c.isDigit = true := by
  rcases Nat.eq_zero_or_pos n with h | h
  · subst h
    decide
  · rw [toDigits_eq_digits h]
    intro c hc
    simp only [List.mem_map, List.mem_reverse] at hc
    obtain ⟨d, hd, rfl⟩ := hc
    exact digitChar_isDigit (Nat.digits_lt_base (by norm_num) hd)

lemma toDigits_ne_nil (n : Nat) : Nat.toDigits 10 n ≠ [] := by
  rcases Nat.eq_zero_or_pos n with h | h
  · subst h
    decide
  · rw [toDigits_eq_digits h]
    have hn : n ≠ 0 := by omega
    simp [Nat.digits_ne_nil_iff_ne_zero, hn]

lemma decFold_append_singleton (l : List Nat) (d a : Nat) :
    (l ++ [d]).foldl (fun a d => 10 * a + d) a
      = 10 * l.foldl (fun a d => 10 * a + d) a + d := by
  simp [List.foldl_append]

lemma decFold_digits_reverse (n : Nat) :
    ((Nat.digits 10 n).reverse).foldl (fun a d => 10 * a + d) 0 = n := by
  induction n using Nat.strong_induction_on with
  | _ n ih =>
    rcases Nat.eq_zero_or_pos n with h | h
    · subst h
      simp
    · rw [Nat.digits_def' (by norm_num) h, List.reverse_cons,
        decFold_append_singleton, ih (n / 10) (Nat.div_lt_self h (by norm_num))]
      exact Nat.div_add_mod n 10

lemma foldl_charVal_map_digitChar (l : List Nat) (hl : ∀ d ∈ l, d < 10) (a : Nat) :
    (l.map Nat.digitChar).foldl (fun a c => 10 * a + charVal c) a
      = l.foldl (fun a d => 10 * a + d) a := by
  induction l generalizing a with
  | nil => rfl
  | cons d l ih =>
    simp only [List.map_cons, List.foldl_cons,
      charVal_digitChar (hl d (by simp))]
    exact ih (fun x hx => hl x (by simp [hx])) _

lemma parseNatChars_toDigits (n : Nat) :
    parseNatChars (Nat.toDigits 10 n) = some n := by
  rcases Nat.eq_zero_or_pos n with h | h
  · subst h
    decide
  · have hd : ∀ d ∈ (Nat.digits 10 n).reverse, d < 10 := fun d hd =>
      Nat.digits_lt_base (by norm_num) (List.mem_reverse.mp hd)
    have hall : (Nat.toDigits 10 n).all Char.isDigit = true := by
      rw [List.all_eq_true]
      intro c hc
      exact toDigits_all_digits n c hc
    unfold parseNatChars
    rw [if_pos ⟨toDigits_ne_nil n, hall⟩]
    rw [toDigits_eq_digits h, foldl_charVal_map_digitChar _ hd 0,
      decFold_digits_reverse]

lemma toString_intOfNat_data (n : Nat) :
    (toString (Int.ofNat n)).data = Nat.toDigits 10 n := rfl

lemma toString_intNegSucc_data (n : Nat) :
    (toString (Int.negSucc n)).data = ('-') :: Nat.toDigits 10 (n + 1) := rfl

lemma parseIntChars_toString (i : Int) :
    parseIntChars (toString i).data = some i := by
  cases i with
  | ofNat n =>
    unfold parseIntChars
    rw [toString_intOfNat_data, if_neg ?_]
    · rw [parseNatChars_toDigits]
      rfl
    · intro hhead
      have hne := toDigits_ne_nil n
      cases hds : Nat.toDigits 10 n with
      | nil => exact hne hds
      | cons c cs =>
        rw [hds] at hhead
        simp only [List.head?_cons, Option.some_inj] at hhead
        have : c.isDigit = true := toDigits_all_digits n c (by rw [hds]; simp)
        rw [hhead] at this
        exact absurd this (by decide)
  | negSucc n =>
    unfold parseIntChars
    rw [toString_intNegSucc_data]
    simp only [List.head?_cons, if_pos rfl, List.tail_cons]
    rw [parseNatChars_toDigits]
    simp [Int.negSucc_eq]

lemma toString_int_no_dot (i : Int) : ('.') ∉ (toString i).data := by
  cases i with
  | ofNat n =>
    rw [toString_intOfNat_data]
    intro hmem
    have := toDigits_all_digits n _ hmem
    exact absurd this (by decide)
  | negSucc n =>
    rw [toString_intNegSucc_data]
    intro hmem
    rcases List.mem_cons.mp hmem with h | h
    · exact absurd h (by decide)
    · exact absurd (toDigits_all_digits (n + 1) _ h) (by decide)

/-! ## Release (`release.py`; identical code in `models.py` WGBlitzRelease) -/

/-- `Release._release_number` (`release.py` lines 93-96):
`[int(r) for r in rel.split('.')]`; `int()` raising on a malformed
component is modelled as `none`. -/
def _release_number (rel : String) : Option (List Int) :=
  (splitOnChar ('.') rel.data).mapM parseIntChars

/-- `Release._release_str` (`release.py` lines 98-101):
`'.'.join([str(r) for r in rel])`. -/
def _release_str (rel : List Int) : String :=
  String.mk (joinDot (rel.map fun i => (toString i).data))

/-- `Release` record: the canonical release string plus the optional
launch date (the date value is opaque here, modelled as an integer). -/
structure Release where
  release : String
  launch_date : Option Int
deriving DecidableEq, Repr

/-- Constructing `Release(release=s, launch_date=d)`: pydantic runs
`validate_release` (`release.py` lines 73-77), which parses the dotted
string and re-emits it in canonical form; a malformed component fails
the whole record. -/
def Release.create (release : String) (launch_date : Option Int) : Option Release :=
  match _release_number release with
  | some rel => some ⟨_release_str rel, launch_date⟩
  | none => none

/-- `Release.next` (`release.py` lines 111-122): parse the current
release, increment MINOR when it is below 10, otherwise reset MINOR to 0
and increment MAJOR, then construct (and re-validate) the result.
Python's `rel[0]`/`rel[1]` raising `IndexError` on short lists is
modelled as `none`. -/
def Release.next (r : Release) : Option Release :=
  match _release_number r.release with
  | none => none
  | some rel =>
    match rel[0]?, rel[1]? with
    | some major, some minor =>
      if minor < 10 then Release.create (_release_str [major, minor + 1]) none
      else Release.create (_release_str [major + 1, 0]) none
    | _, _ => none

lemma mapM_parseIntChars_map_toString (rel : List Int) :
    ((rel.map fun i => (toString i).data).mapM parseIntChars) = some rel := by
  rw [← List.mapM'_eq_mapM]
  induction rel with
  | nil => rfl
  | cons i l ih => simp [List.mapM'_cons, parseIntChars_toString, ih]

lemma release_number_release_str (rel : List Int) (h : rel ≠ []) :
    _release_number (_release_str rel) = some rel := by
  unfold _release_number _release_str
  rw [show (String.mk (joinDot (rel.map fun i => (toString i).data))).data
      = joinDot (rel.map fun i => (toString i).data) from rfl]
  rw [splitOnChar_joinDot _ (by simpa using h) ?_]
  · exact mapM_parseIntChars_map_toString rel
  · intro p hp
    simp only [List.mem_map] at hp
    obtain ⟨i, _, rfl⟩ := hp
    exact toString_int_no_dot i

/-- C7: for every release whose string parses as MAJOR.MINOR (with any
further components), `next()` increments MINOR when it is below 10 and
otherwise rolls MAJOR over by one and resets MINOR to 0; in particular
`next("11.9").release == "11.10"` and `next("11.10").release == "12.0"`. -/
theorem C7_next_release (r : Release) (major minor : Int) (rest : List Int)
    (h : _release_number r.release = some (major :: minor :: rest)) :
    (minor < 10 →
      ∃ r2, r.next = some r2 ∧ r2.release = _release_str [major, minor + 1]) ∧
    (¬ minor < 10 →
      ∃ r2, r.next = some r2 ∧ r2.release = _release_str [major + 1, 0]) ∧
    Option.map Release.release ((Release.create "11.9" none).bind Release.next)
      = some "11.10" ∧
    Option.map Release.release ((Release.create "11.10" none).bind Release.next)
      = some "12.0" := by
  refine ⟨?_, ?_, by decide, by decide⟩
  · intro hm
    unfold Release.next
    rw [h]
    simp only [List.getElem?_cons_zero, List.getElem?_cons_succ]
    rw [if_pos hm]
    unfold Release.create
    rw [release_number_release_str [major, minor + 1] (by simp)]
    exact ⟨_, rfl, rfl⟩
  · intro hm
    unfold Release.next
    rw [h]
    simp only [List.getElem?_cons_zero, List.getElem?_cons_succ]
    rw [if_neg hm]
    unfold Release.create
    rw [release_number_release_str [major + 1, 0] (by simp)]
    exact ⟨_, rfl, rfl⟩

/-- Witness for C7 at the concrete release "11.9". -/
theorem C7_next_release_witness :
    (9 : Int) < 10 ∧
      ∃ r2, (Release.mk "11.9" none).next = some r2 ∧
        r2.release = _release_str [11, 9 + 1] :=
  ⟨by norm_num,
    (C7_next_release ⟨"11.9", none⟩ 11 9 [] (by decide)).1 (by norm_num)⟩

/-- `Release.__eq__` (`release.py` lines 124-125): equality is determined
solely by the release string (after the `isinstance` check, which always
holds between two `Release` values). -/
def Release.beq (a b : Release) : Bool := a.release == b.release

/-- `Release.__hash__` (`release.py` lines 127-128): `hash((self.release,
self.launch_date))`.  The pair handed to Python's `hash` is the faithful
shallow embedding of the hash; distinct pairs are distinct hash inputs. -/
def Release.hashKey (a : Release) : String × Option Int := (a.release, a.launch_date)

/-- C10: two validated `Release` values with the same release string but
different launch dates compare equal under `__eq__` yet feed different
inputs to `__hash__`, breaking the equal-objects-have-equal-hashes
contract. -/
theorem C10_eq_hash_contract_broken :
    ∃ x y : Release,
      Release.create "1.0" none = some x ∧
      Release.create "1.0" (some 20230705) = some y ∧
      Release.beq x y = true ∧
      Release.hashKey x ≠ Release.hashKey y :=
  ⟨⟨"1.0", none⟩, ⟨"1.0", some 20230705⟩, by decide, by decide, by decide, by decide⟩

/-! ## ReplayAnalyzer (`models.py` WoTBlitzReplaySummary / WoTBlitzReplayJSON) -/

/-- `EnumWinnerTeam` (`models.py` lines 193-196). -/
inductive EnumWinnerTeam where
  | draw
  | one
  | two
deriving DecidableEq, Repr

/-- `EnumBattleResult` (`models.py` lines 199-204). -/
inductive EnumBattleResult where
  | incomplete
  | not_win
  | win
  | loss
  | draw
deriving DecidableEq, Repr

/-- The fields of `WoTBlitzReplaySummary` that the analyzer queries read
(`models.py` lines 465-493); both enum fields are declared `| None`. -/
structure ReplaySummary where
  winner_team : Option EnumWinnerTeam
  battle_result : Option EnumBattleResult
  allies : List Int
  enemies : List Int
deriving DecidableEq, Repr

/-- `WoTBlitzReplayJSON.get_enemies` (`models.py` lines 672-678). -/
def get_enemies (r : ReplaySummary) (player : Option Int) : Except String (List Int) :=
  match player with
  | none => .ok r.enemies
  | some p =>
    if p ∈ r.allies then .ok r.enemies
    else if p ∈ r.enemies then .ok r.allies
    else .error "account_id not found in replay"

/-- `WoTBlitzReplayJSON.get_allies` (`models.py` lines 681-687). -/
def get_allies (r : ReplaySummary) (player : Option Int) : Except String (List Int) :=
  match player with
  | none => .ok r.allies
  | some p =>
    if p ∈ r.allies then .ok r.allies
    else if p ∈ r.enemies then .ok r.enemies
    else .error "player not found in replay"

/-- `WoTBlitzReplayJSON.get_battle_result` (`models.py` lines 712-736).
The membership tests in the source call `self.get_enemies()` /
`self.get_allies()` with no argument, i.e. they test the recorded lists
directly; the `elif player is None or player in allies` arm is reached
only when the enemy test failed. -/
def get_battle_result (r : ReplaySummary) (player : Option Int) : EnumBattleResult :=
  if r.battle_result = some .incomplete then .incomplete
  else
    match player with
    | some p =>
      if p ∈ r.enemies then
        if r.battle_result = some .win then .loss
        else if r.winner_team = some .draw then .draw
        else .win
      else if p ∈ r.allies then
        if r.battle_result = some .win then .win
        else if r.winner_team = some .draw then .draw
        else .loss
      else .incomplete
    | none =>
      if r.battle_result = some .win then .win
      else if r.winner_team = some .draw then .draw
      else .loss

/-- The concrete replay scenario of the spec: recorded outcome `win`,
allies {100, 200}, enemies {300, 400}. -/
def exampleReplay : ReplaySummary :=
  { winner_team := some .one
    battle_result := some .win
    allies := [100, 200]
    enemies := [300, 400] }

/-- C5: the outcome query is a pure classification: a stored incomplete
outcome is returned for every viewpoint; for a viewpoint on the enemy
side a stored win flips to loss, a recorded draw (winner team `draw`)
stays draw, and any other stored non-win flips to win; for a viewpoint on
the ally side, or no viewpoint, a stored win stays win, a recorded draw
stays draw, and any other stored non-win is a loss; and on the concrete
scenario outcome(300) = loss, outcome(999) = incomplete, outcome() = win. -/
theorem C5_outcome_classification (r : ReplaySummary) (player : Option Int) :
    (r.battle_result = some .incomplete →
      get_battle_result r player = .incomplete) ∧
    (r.battle_result ≠ some .incomplete →
      ∀ p, player = some p → p ∈ r.enemies →
        (r.battle_result = some .win → get_battle_result r player = .loss) ∧
        (r.battle_result ≠ some .win → r.winner_team = some .draw →
          get_battle_result r player = .draw) ∧
        (r.battle_result ≠ some .win → r.winner_team ≠ some .draw →
          get_battle_result r player = .win)) ∧
    (r.battle_result ≠ some .incomplete →
      (player = none ∨ ∃ p, player = some p ∧ p ∉ r.enemies ∧ p ∈ r.allies) →
        (r.battle_result = some .win → get_battle_result r player = .win) ∧
        (r.battle_result ≠ some .win → r.winner_team = some .draw →
          get_battle_result r player = .draw) ∧
        (r.battle_result ≠ some .win → r.winner_team ≠ some .draw →
          get_battle_result r player = .loss)) ∧
    get_battle_result exampleReplay (some 300) = .loss ∧
    get_battle_result exampleReplay (some 999) = .incomplete ∧
    get_battle_result exampleReplay none = .win := by
  refine ⟨?_, ?_, ?_, by decide, by decide, by decide⟩
  · intro h
    simp [get_battle_result, h]
  · rintro hbr p rfl hp
    refine ⟨fun hw => ?_, fun hw hd => ?_, fun hw hd => ?_⟩ <;>
      simp [get_battle_result, hbr, hp, hw, *]
  · rintro hbr (rfl | ⟨p, rfl, hpe, hpa⟩)
    · refine ⟨fun hw => ?_, fun hw hd => ?_, fun hw hd => ?_⟩ <;>
        simp [get_battle_result, hbr, hw, *]
    · refine ⟨fun hw => ?_, fun hw hd => ?_, fun hw hd => ?_⟩ <;>
        simp [get_battle_result, hbr, hpe, hpa, hw, *]

/-- Witness for C5: the enemy-viewpoint flip on the concrete scenario. -/
theorem C5_outcome_classification_witness :
    get_battle_result exampleReplay (some 300) = .loss :=
  ((C5_outcome_classification exampleReplay (some 300)).2.1 (by decide)
    300 rfl (by decide)).1 (by decide)

/-- C6: for every viewpoint id on neither recorded side, the membership
queries `get_allies` and `get_enemies` fail with a participant-not-found
error, while `get_battle_result` does not fail and returns `incomplete`. -/
theorem C6_absent_viewpoint (r : ReplaySummary) (p : Int)
    (ha : p ∉ r.allies) (he : p ∉ r.enemies) :
    (∃ msg, get_allies r (some p) = .error msg) ∧
    (∃ msg, get_enemies r (some p) = .error msg) ∧
    get_battle_result r (some p) = .incomplete := by
  refine ⟨⟨"player not found in replay", ?_⟩,
    ⟨"account_id not found in replay", ?_⟩, ?_⟩
  · simp [get_allies, ha, he]
  · simp [get_enemies, ha, he]
  · by_cases hbr : r.battle_result = some .incomplete
    · simp [get_battle_result, hbr]
    · simp [get_battle_result, hbr, ha, he]

/-- Witness for C6 at viewpoint 999 of the concrete scenario. -/
theorem C6_absent_viewpoint_witness :
    (∃ msg, get_allies exampleReplay (some 999) = .error msg) ∧
    (∃ msg, get_enemies exampleReplay (some 999) = .error msg) ∧
    get_battle_result exampleReplay (some 999) = .incomplete :=
  C6_absent_viewpoint exampleReplay 999 (by decide) (by decide)

/-! ## WGTankStat normalization (`wg_api.py` lines 88-262) -/

/-- The `unset` validator (`wg_api.py` lines 112-114 and 257-259):
`return None` regardless of the wire value. -/
def unset (v : Option α) : Option α := none

/-- `WGTankStatAll` (`wg_api.py` lines 88-114). -/
structure WGTankStatAll where
  battles : Int
  wins : Int
  losses : Int
  spotted : Int
  hits : Int
  frags : Int
  max_xp : Option Int
  capture_points : Int
  damage_dealt : Int
  damage_received : Int
  max_frags : Int
  shots : Int
  frags8p : Option Int
  xp : Option Int
  win_and_survived : Int
  survived_battles : Int
  dropped_capture_points : Int
deriving DecidableEq, Repr

/-- Constructing a `WGTankStatAll` from wire values: the `unset` field
validator forces `frags8p`, `xp` and `max_xp` to `None` whether the wire
supplied a value (`some v`) or omitted the field (`none`, pydantic's
implicit default for optional fields). -/
def WGTankStatAll.create (battles wins losses spotted hits frags : Int)
    (max_xp : Option Int)
    (capture_points damage_dealt damage_received max_frags shots : Int)
    (frags8p xp : Option Int)
    (win_and_survived survived_battles dropped_capture_points : Int) :
    WGTankStatAll :=
  { battles, wins, losses, spotted, hits, frags
    max_xp := unset max_xp
    capture_points, damage_dealt, damage_received, max_frags, shots
    frags8p := unset frags8p
    xp := unset xp
    win_and_survived, survived_battles, dropped_capture_points }

/-- Assignment to a field with `validate_assignment = True` re-runs the
field validator: `s.frags8p = v` stores `unset(v)`. -/
def WGTankStatAll.assign_frags8p (s : WGTankStatAll) (v : Option Int) : WGTankStatAll :=
  { s with frags8p := unset v }

def WGTankStatAll.assign_xp (s : WGTankStatAll) (v : Option Int) : WGTankStatAll :=
  { s with xp := unset v }

def WGTankStatAll.assign_max_xp (s : WGTankStatAll) (v : Option Int) : WGTankStatAll :=
  { s with max_xp := unset v }

/-- `WGTankStat` (`wg_api.py` lines 117-131); the `id` is the 24-hex-digit
`ObjectId`. -/
structure WGTankStat where
  id : List Nat
  region : Option Region
  all : WGTankStatAll
  last_battle_time : Int
  account_id : Nat
  tank_id : Nat
  mark_of_mastery : Int
  battle_life_time : Int
  release : Option String
  max_xp : Option Int
  in_garage_updated : Option Int
  max_frags : Option Int
  frags : Option Int
  in_garage : Option Bool
deriving DecidableEq, Repr

/-- `WGTankStat.validate_lbt` (`wg_api.py` lines 226-232): clamp a
last-battle timestamp more than 36000 seconds past the reference clock
`now` (`epoch_now()`, passed explicitly here) back to `now`. -/
def validate_lbt (now v : Int) : Int :=
  if v > now + 36000 then now else v

/-- `WGTankStat.set_id` root validator (pre=True, `wg_api.py` lines
234-246): when no id is supplied, derive one with `mk_id` from the raw
wire values — this runs before the `validate_lbt` clamp.  `hex()` of a
negative value emits a minus sign, which the `ObjectId` constructor
rejects just like a wrong-length string. -/
def WGTankStat.set_id (id : Option (List Nat)) (account_id : Nat)
    (last_battle_time : Int) (tank_id : Nat) : Except String (List Nat) :=
  match id with
  | some i => .ok i
  | none =>
    if 0 ≤ last_battle_time then mk_id account_id last_battle_time.toNat tank_id
    else .error "InvalidId"

/-- The `WGTankStat` construction pipeline: `set_id` (pre root validator),
then the field validators (`validate_lbt`, the five `unset` fields), then
`set_region` (post root validator, lines 248-255) which derives the
region from the account id when none was given. -/
def WGTankStat.create (now : Int) (id : Option (List Nat))
    (region : Option Region) (all : WGTankStatAll)
    (last_battle_time : Int) (account_id tank_id : Nat)
    (mark_of_mastery battle_life_time : Int) (release : Option String)
    (max_xp in_garage_updated max_frags frags : Option Int)
    (in_garage : Option Bool) : Except String WGTankStat :=
  match WGTankStat.set_id id account_id last_battle_time tank_id with
  | .error e => .error e
  | .ok theId =>
    .ok { id := theId
          region := match region with
            | some r => some r
            | none => some (Region.from_id account_id)
          all
          last_battle_time := validate_lbt now last_battle_time
          account_id, tank_id, mark_of_mastery, battle_life_time, release
          max_xp := unset max_xp
          in_garage_updated := unset in_garage_updated
          max_frags := unset max_frags
          frags := unset frags
          in_garage := unset in_garage }

def WGTankStat.assign_max_xp (s : WGTankStat) (v : Option Int) : WGTankStat :=
  { s with max_xp := unset v }

def WGTankStat.assign_in_garage_updated (s : WGTankStat) (v : Option Int) : WGTankStat :=
  { s with in_garage_updated := unset v }

def WGTankStat.assign_max_frags (s : WGTankStat) (v : Option Int) : WGTankStat :=
  { s with max_frags := unset v }

def WGTankStat.assign_frags (s : WGTankStat) (v : Option Int) : WGTankStat :=
  { s with frags := unset v }

def WGTankStat.assign_in_garage (s : WGTankStat) (v : Option Bool) : WGTankStat :=
  { s with in_garage := unset v }

lemma create_error_of_set_id (now : Int) (id : Option (List Nat))
    (region : Option Region) (all : WGTankStatAll)
    (last_battle_time : Int) (account_id tank_id : Nat)
    (mark_of_mastery battle_life_time : Int) (release : Option String)
    (max_xp in_garage_updated max_frags frags : Option Int)
    (in_garage : Option Bool) (e : String)
    (h : WGTankStat.set_id id account_id last_battle_time tank_id = .error e) :
    WGTankStat.create now id region all last_battle_time account_id tank_id
      mark_of_mastery battle_life_time release max_xp in_garage_updated
      max_frags frags in_garage = .error e := by
  unfold WGTankStat.create
  rw [h]

/-- Counterexample to C8 as universally stated: with no explicit id and a
raw last-battle timestamp of 16^8 seconds (more than 36000 s past
`now = 1000`), the record is rejected — `set_id` encodes the raw,
pre-clamp timestamp and its hex representation overflows the 8-digit
identity-encoding budget — instead of being normalized with the clamp. -/
theorem C8_reject_before_clamp :
    WGTankStat.create 1000 none none
        (WGTankStatAll.create 1 0 0 0 0 0 none 0 0 0 0 0 none none 0 0 0)
        ((16 : Int) ^ 8) 1 2 0 0 none none none none none none
      = .error "InvalidId" := by
  have hset : WGTankStat.set_id none 1 ((16 : Int) ^ 8) 2 = .error "InvalidId" := by
    have htn : ((16 : Int) ^ 8).toNat = 16 ^ 8 := by decide
    have herr : mk_id 1 (16 ^ 8) 2 = .error "InvalidId" := by
      unfold mk_id objectId
      rw [if_neg]
      have hgt := @mk_id_raw_length_gt 1 2 (16 ^ 8)
        (fun hcon => absurd hcon.2.2 (by norm_num))
      omega
    unfold WGTankStat.set_id
    rw [if_pos (by positivity), htn, herr]
  exact create_error_of_set_id 1000 none none _ _ 1 2 0 0 none none none none
    none none _ hset

/-- C8 (amended): whenever construction of a tank-statistics record
succeeds, a last-battle timestamp more than 36000 seconds past `now` has
been replaced by `now` and any other timestamp kept unchanged; and with
an explicit id the record is never rejected on account of the timestamp —
construction succeeds for every timestamp value. -/
theorem C8_timestamp_clamp (now : Int) (id : Option (List Nat))
    (region : Option Region) (all : WGTankStatAll) (lbt : Int)
    (account_id tank_id : Nat) (mom blt : Int) (release : Option String)
    (mx igu mf fr : Option Int) (ig : Option Bool) :
    (∀ st, WGTankStat.create now id region all lbt account_id tank_id
        mom blt release mx igu mf fr ig = .ok st →
      (lbt > now + 36000 → st.last_battle_time = now) ∧
      (lbt ≤ now + 36000 → st.last_battle_time = lbt)) ∧
    (∀ i : List Nat, ∃ st, WGTankStat.create now (some i) region all lbt
        account_id tank_id mom blt release mx igu mf fr ig = .ok st) := by
  constructor
  · intro st h
    unfold WGTankStat.create at h
    rcases hid : WGTankStat.set_id id account_id lbt tank_id with e | theId
    · rw [hid] at h
      exact absurd h (by simp)
    · rw [hid] at h
      simp only [Except.ok.injEq] at h
      subst h
      constructor
      · intro hgt
        simp [validate_lbt, hgt]
      · intro hle
        simp only [validate_lbt]
        rw [if_neg (by omega)]
  · intro i
    exact ⟨_, rfl⟩

/-- Witness for C8: a timestamp 40000 s past `now = 1000` is clamped to
1000 on the constructed record. -/
theorem C8_timestamp_clamp_witness :
    ∀ st, WGTankStat.create 1000 (some (List.replicate 24 0)) none
        (WGTankStatAll.create 1 0 0 0 0 0 none 0 0 0 0 0 none none 0 0 0)
        41000 1 2 0 0 none none none none none none = .ok st →
      st.last_battle_time = 1000 := by
  intro st h
  exact ((C8_timestamp_clamp 1000 (some (List.replicate 24 0)) none
      (WGTankStatAll.create 1 0 0 0 0 0 none 0 0 0 0 0 none none 0 0 0)
      41000 1 2 0 0 none none none none none none).1 st h).1 (by norm_num)

/-- C9: after construction, and after any assignment to one of them, the
unreliable optional counters are forced to the absent state: `max_frags`,
`frags`, `max_xp`, `in_garage`, `in_garage_updated` on the record and
`frags8p`, `xp`, `max_xp` in the nested aggregate block are always
`none`, regardless of the wire values. -/
theorem C9_unsettable_fields (battles wins losses spotted hits frags : Int)
    (amx : Option Int) (cp dd dr amf shots : Int) (af8p axp : Option Int)
    (ws sb dcp : Int) (now : Int) (id : Option (List Nat))
    (region : Option Region) (lbt : Int) (account_id tank_id : Nat)
    (mom blt : Int) (release : Option String) (mx igu mf fr : Option Int)
    (ig : Option Bool) :
    (WGTankStatAll.create battles wins losses spotted hits frags amx cp dd dr
        amf shots af8p axp ws sb dcp).max_xp = none ∧
    (WGTankStatAll.create battles wins losses spotted hits frags amx cp dd dr
        amf shots af8p axp ws sb dcp).frags8p = none ∧
    (WGTankStatAll.create battles wins losses spotted hits frags amx cp dd dr
        amf shots af8p axp ws sb dcp).xp = none ∧
    (∀ s v, (WGTankStatAll.assign_frags8p s v).frags8p = none) ∧
    (∀ s v, (WGTankStatAll.assign_xp s v).xp = none) ∧
    (∀ s v, (WGTankStatAll.assign_max_xp s v).max_xp = none) ∧
    (∀ st, WGTankStat.create now id region
        (WGTankStatAll.create battles wins losses spotted hits frags amx cp dd
          dr amf shots af8p axp ws sb dcp)
        lbt account_id tank_id mom blt release mx igu mf fr ig = .ok st →
      st.max_frags = none ∧ st.frags = none ∧ st.max_xp = none ∧
        st.in_garage = none ∧ st.in_garage_updated = none ∧
        st.all.frags8p = none ∧ st.all.xp = none ∧ st.all.max_xp = none) ∧
    (∀ s v, (WGTankStat.assign_max_xp s v).max_xp = none) ∧
    (∀ s v, (WGTankStat.assign_in_garage_updated s v).in_garage_updated = none) ∧
    (∀ s v, (WGTankStat.assign_max_frags s v).max_frags = none) ∧
    (∀ s v, (WGTankStat.assign_frags s v).frags = none) ∧
    (∀ s v, (WGTankStat.assign_in_garage s v).in_garage = none) := by
  refine ⟨rfl, rfl, rfl, fun s v => rfl, fun s v => rfl, fun s v => rfl,
    ?_, fun s v => rfl, fun s v => rfl, fun s v => rfl, fun s v => rfl,
    fun s v => rfl⟩
  intro st h
  unfold WGTankStat.create at h
  rcases hid : WGTankStat.set_id id account_id lbt tank_id with e | theId
  · rw [hid] at h
    exact absurd h (by simp)
  · rw [hid] at h
    simp only [Except.ok.injEq] at h
    subst h
    exact ⟨rfl, rfl, rfl, rfl, rfl, rfl, rfl, rfl⟩

/-- Witness for C9: a record constructed with every unsettable counter
supplied on the wire still has them all absent. -/
theorem C9_unsettable_fields_witness :
    ∀ st, WGTankStat.create 1000 (some (List.replicate 24 0)) none
        (WGTankStatAll.create 1 0 0 0 0 0 (some 7) 0 0 0 0 0 (some 8) (some 9)
          0 0 0)
        500 1 2 0 0 none (some 1) (some 2) (some 3) (some 4) (some true)
        = .ok st →
      st.max_frags = none ∧ st.frags = none ∧ st.max_xp = none ∧
        st.in_garage = none ∧ st.in_garage_updated = none ∧
        st.all.frags8p = none ∧ st.all.xp = none ∧ st.all.max_xp = none :=
  fun st h =>
    (C9_unsettable_fields 1 0 0 0 0 0 (some 7) 0 0 0 0 0 (some 8) (some 9)
      0 0 0 1000 (some (List.replicate 24 0)) none 500 1 2 0 0 none
      (some 1) (some 2) (some 3) (some 4) (some true)).2.2.2.2.2.2.1 st h

/-! ## Account construction (`account.py` lines 44-120)

`models.py` (lines 74-140) has the same behaviour for the property at
issue: its `set_region` post validator also fills the region from
`Region.from_id` only when it is `None` and never cross-checks an
explicit region.  Fields without validators that no claim mentions
(`created_at`, `updated_at`, `nickname`) are omitted. -/

/-- A wire value for the `id`/`_id` payload field: an `int` or a
composite `"<id>:<region>"` string. -/
inductive IdValue where
  | int (n : Int)
  | str (s : String)
deriving DecidableEq, Repr

/-- The `Account` record (`account.py` lines 44-54). -/
structure Account where
  id : Int
  region : Region
  last_battle_time : Int
deriving DecidableEq, Repr

/-- `Account.read_account_id` (`account.py` lines 90-120), the pre=True
root validator: when both an id and a region are present the values are
returned unchanged (the shortcut at line 104-105); an integer id with no
region derives the region from the id range; a string id is split on
`':'`, its first part parsed as the account id, and its second part (when
exactly one is present) parsed as a region, otherwise the region is
derived from the id range. -/
def Account.read_account_id (id_val : Option IdValue) (region : Option Region) :
    Except String (IdValue × Region) :=
  match id_val, region with
  | none, _ => .error "No id or _id defined"
  | some v, some r => .ok (v, r)
  | some (.int n), none => .ok (.int n, Region.from_id n.toNat)
  | some (.str s), none =>
    match splitOnChar (':') s.data with
    | [] => .error "unreachable: split never returns an empty list"
    | p0 :: ptail =>
      match parseIntChars p0 with
      | none => .error "invalid literal for int"
      | some account_id =>
        match ptail with
        | [p1] =>
          match Region.fromStr (String.mk p1) with
          | some r => .ok (.int account_id, r)
          | none => .error "is not a valid Region"
        | _ => .ok (.int account_id, Region.from_id account_id.toNat)

/-- pydantic's coercion of the raw id value into the declared `int`
field: an `int` passes through, a string must parse as an integer. -/
def coerce_id : IdValue → Except String Int
  | .int n => .ok n
  | .str s =>
    match parseIntChars s.data with
    | some n => .ok n
    | none => .error "value is not a valid integer"

/-- `Account.check_id` (`account.py` lines 73-81). -/
def check_id (v : Int) : Except String Int :=
  if v < 0 then .error "account_id must be >= 0" else .ok v

/-- `Account.check_epoch_ge_zero` (`account.py` lines 83-88). -/
def check_epoch_ge_zero (v : Int) : Except String Int :=
  if v ≥ 0 then .ok v else .error "time field must be >= 0"

/-- The `Account` construction pipeline: the pre root validator
`read_account_id`, then field coercion and the field validators. -/
def Account.create (id_val : Option IdValue) (region : Option Region)
    (last_battle_time : Int) : Except String Account :=
  match Account.read_account_id id_val region with
  | .error e => .error e
  | .ok (rawId, reg) =>
    match coerce_id rawId with
    | .error e => .error e
    | .ok idInt =>
      match check_id idInt with
      | .error e => .error e
      | .ok idOk =>
        match check_epoch_ge_zero last_battle_time with
        | .error e => .error e
        | .ok lbt => .ok { id := idOk, region := reg, last_battle_time := lbt }

/-- Counterexample to C1 as stated: the payload (id = 5, region = eu)
carries an explicit region that disagrees with the range-derived region
(`Region.from_id 5 = ru`), yet construction succeeds with the explicit
region — no validation error is surfaced. -/
theorem C1_region_disagreement_accepted :
    Region.from_id 5 ≠ Region.eu ∧
      Account.create (some (.int 5)) (some .eu) 0 =
        .ok { id := 5, region := .eu, last_battle_time := 0 } := by
  constructor
  · decide
  · rfl

/-- C1 (amended): construction never cross-checks an explicit region
against the range-derived one — when both an id and an explicit region
are present, the explicit region is accepted unchanged (even when it
contradicts `Region.from_id`) and no error is raised; only when the
explicit region is entirely absent is the range-derived region used. -/
theorem C1_explicit_region_wins (n : Int) (r : Region) (lbt : Int)
    (hn : 0 ≤ n) (hlbt : 0 ≤ lbt) :
    Account.create (some (.int n)) (some r) lbt =
      .ok { id := n, region := r, last_battle_time := lbt } ∧
    Account.create (some (.int n)) none lbt =
      .ok { id := n, region := Region.from_id n.toNat, last_battle_time := lbt } := by
  have h1 : check_id n = .ok n := by
    unfold check_id
    rw [if_neg (by omega)]
  have h2 : check_epoch_ge_zero lbt = .ok lbt := by
    unfold check_epoch_ge_zero
    rw [if_pos (by omega)]
  constructor
  · simp [Account.create, Account.read_account_id, coerce_id, h1, h2]
  · simp [Account.create, Account.read_account_id, coerce_id, h1, h2]

/-- Witness for the amended C1 at the disagreeing payload (5, eu). -/
theorem C1_explicit_region_wins_witness :
    Account.create (some (.int 5)) (some .eu) 0 =
        .ok { id := 5, region := .eu, last_battle_time := 0 } ∧
      Account.create (some (.int 5)) none 0 =
        .ok { id := 5, region := Region.from_id 5, last_battle_time := 0 } :=
  C1_explicit_region_wins 5 .eu 0 (by norm_num) (by norm_num)

end BlitzUtils
